import Mathlib

/-!
Shallow embedding of the ty-ras/client-axios repository
(`src/code/client/src/client.ts`) together with proofs about the claims of
its specification.

The source file exports `createCallHTTPEndpoint`, a factory producing an
asynchronous callback which sends one HTTP request through an Axios
instance and normalizes the response.  The embedding below translates the
pure request-construction and response-normalization logic of that file:

* JavaScript values appearing in query/header mappings become `JSValue`;
* `getURLSearchParams`, `getOutgoingHeader(s)`, `ensureNoQueryOrFragment`
  are translated clause by clause from the source;
* the WHATWG `URL` constructor is a platform primitive and is modelled as
  an explicit resolution-function parameter yielding `origin`/`href`;
* `JSON.parse` / `JSON.stringify` are platform primitives modelled by an
  executable fuel-based parser / serializer over a `JSON` tree (JSON
  numbers are modelled as integers; fractional literals are out of scope
  for every claim);
* the Axios engine is modelled as an oracle: the callback's pure work is
  split into `buildEngineRequest` (everything handed to the engine) and
  `handleResponse` (everything done with the engine's response).
-/

namespace ClientAxios

/-- Model of the JavaScript values that can appear as query-parameter
values, request-header values and response-header values.  `vOther`
stands for any further JavaScript value (e.g. a plain object), recorded
by the string its template-literal conversion produces. -/
inductive JSValue where
  | vStr (s : String)
  | vNum (n : Int)
  | vBool (b : Bool)
  | vNull
  | vUndefined
  | vArr (elems : List JSValue)
  | vOther (stringRep : String)

/-- JavaScript strict-equality test against `undefined`. -/
def JSValue.isUndefined : JSValue → Bool
  | .vUndefined => true
  | _ => false

/-- JavaScript strict-equality test against `null`. -/
def JSValue.isNull : JSValue → Bool
  | .vNull => true
  | _ => false

/-- `Array.isArray`. -/
def JSValue.isArr : JSValue → Bool
  | .vArr _ => true
  | _ => false

/-- `typeof v === "string"`. -/
def JSValue.isStr : JSValue → Bool
  | .vStr _ => true
  | _ => false

/-- `typeof v === "number"`. -/
def JSValue.isNum : JSValue → Bool
  | .vNum _ => true
  | _ => false

mutual

/-- JavaScript template-literal string conversion of a value.
Arrays join their elements with a comma, converting `null`/`undefined`
elements to the empty string, exactly as `Array.prototype.toString`. -/
def jsToString : JSValue → String
  | .vStr s => s
  | .vNum n => toString n
  | .vBool b => if b then "true" else "false"
  | .vNull => "null"
  | .vUndefined => "undefined"
  | .vArr elems => jsArrJoin elems
  | .vOther s => s
termination_by v => (sizeOf v, 0)

/-- `Array.prototype.join` with separator comma, as used by the string
conversion of an array. -/
def jsArrJoin : List JSValue → String
  | [] => ""
  | [x] => jsElemString x
  | x :: xs => jsElemString x ++ "," ++ jsArrJoin xs
termination_by xs => (sizeOf xs, 2)

/-- String conversion of one array element inside a join: `null` and
`undefined` become the empty string, anything else converts normally. -/
def jsElemString : JSValue → String
  | .vNull => ""
  | .vUndefined => ""
  | v => jsToString v
termination_by v => (sizeOf v, 1)

end

/-- Translation of `getURLSearchParams` (client.ts, lines 141-150): the
entry list handed to `new URLSearchParams(...)`.  Entries whose value is
`undefined` are filtered out; an array value contributes one pair per
element, any other value contributes one string-converted pair. -/
def getURLSearchParams (query : List (String × JSValue)) : List (String × String) :=
  (query.filter (fun p => !p.2.isUndefined)).flatMap (fun p =>
    match p.2 with
    | .vArr elems => elems.map (fun value => (p.1, jsToString value))
    | _ => [(p.1, jsToString p.2)])

/-- The wire form of one outgoing header value: `string | number | Array<string>`. -/
inductive OutgoingHeader where
  | str (s : String)
  | num (n : Int)
  | arr (elems : List String)

/-- Translation of `getOutgoingHeader` (client.ts, lines 170-175). -/
def getOutgoingHeader (header : JSValue) : OutgoingHeader :=
  match header with
  | .vStr s => .str s
  | .vNum n => .num n
  | .vArr elems => .arr ((elems.filter (fun v => !v.isUndefined)).map jsToString)
  | _ => .str (jsToString header)

/-- The entry list built by `getOutgoingHeaders` for a defined header
mapping (client.ts, lines 161-168). -/
def getOutgoingHeadersEntries (headers : List (String × JSValue)) :
    List (String × OutgoingHeader) :=
  (headers.filter (fun p => !p.2.isUndefined)).map
    (fun p => (p.1, getOutgoingHeader p.2))

/-- Translation of `getOutgoingHeaders` (client.ts, lines 158-168),
including its `undefined` propagation. -/
def getOutgoingHeaders :
    Option (List (String × JSValue)) → Option (List (String × OutgoingHeader))
  | none => none
  | some headers => some (getOutgoingHeadersEntries headers)

/-- The replacement applied to one regex match of `/\?|#/g` in
`ensureNoQueryOrFragment`: a percent sign followed by the upper-cased
hexadecimal character code. -/
def escapeQFChar (c : Char) : String :=
  if c = '?' ∨ c = '#' then
    "%" ++ String.mk ((Nat.toDigits 16 c.toNat).map Char.toUpper)
  else
    String.singleton c

/-- Translation of `ensureNoQueryOrFragment` (client.ts, lines 152-156):
`path.replaceAll(/\?|#/g, ...)`, i.e. the concatenation of per-character
replacements. -/
def ensureNoQueryOrFragment (path : String) : String :=
  String.mk (path.data.flatMap (fun c => (escapeQFChar c).data))

/-- `DUMMY_ORIGIN` (client.ts, line 139). -/
def DUMMY_ORIGIN : String := "ftp://__dummy__"

/-- JSON values, the result type of `JSON.parse`.  Numbers are modelled
as integers (no claim involves fractional literals). -/
inductive JSON where
  | null
  | bool (b : Bool)
  | num (n : Int)
  | str (s : String)
  | arr (elems : List JSON)
  | obj (fields : List (String × JSON))

/-- Skip JSON whitespace. -/
def skipWs : List Char → List Char
  | [] => []
  | c :: cs => if c = ' ' ∨ c = '\t' ∨ c = '\n' ∨ c = '\r' then skipWs cs else c :: cs

/-- Value of one hexadecimal digit. -/
def hexVal (c : Char) : Option Nat :=
  if c.isDigit then some (c.toNat - 48)
  else if 'a' ≤ c ∧ c ≤ 'f' then some (c.toNat - 87)
  else if 'A' ≤ c ∧ c ≤ 'F' then some (c.toNat - 55)
  else none

/-- Parse a nonempty run of decimal digits. -/
def pDigits (cs : List Char) : Option (Nat × List Char) :=
  let ds := cs.takeWhile Char.isDigit
  if ds.isEmpty then none
  else some (ds.foldl (fun a c => a * 10 + (c.toNat - 48)) 0, cs.dropWhile Char.isDigit)

/-- Parse the remainder of a JSON string literal (the opening quote is
already consumed), handling the standard escapes. -/
def pString : Nat → List Char → Option (String × List Char)
  | 0, _ => none
  | _ + 1, [] => none
  | _ + 1, '"' :: rest => some ("", rest)
  | fuel + 1, '\\' :: rest =>
    match rest with
    | [] => none
    | e :: rest2 =>
      let esc : Option (Char × List Char) :=
        match e, rest2 with
        | '"', r => some ('"', r)
        | '\\', r => some ('\\', r)
        | '/', r => some ('/', r)
        | 'b', r => some ('\x08', r)
        | 'f', r => some ('\x0c', r)
        | 'n', r => some ('\n', r)
        | 'r', r => some ('\r', r)
        | 't', r => some ('\t', r)
        | 'u', a :: b :: c :: d :: r =>
          match hexVal a, hexVal b, hexVal c, hexVal d with
          | some ha, some hb, some hc, some hd =>
            some (Char.ofNat (((ha * 16 + hb) * 16 + hc) * 16 + hd), r)
          | _, _, _, _ => none
        | _, _ => none
      match esc with
      | none => none
      | some (ch, r) => (pString fuel r).map (fun p => (String.singleton ch ++ p.1, p.2))
  | fuel + 1, c :: rest =>
    (pString fuel rest).map (fun p => (String.singleton c ++ p.1, p.2))

mutual

/-- Parse one JSON value (fuel-based recursion). -/
def pValue : Nat → List Char → Option (JSON × List Char)
  | 0, _ => none
  | fuel + 1, cs =>
    match skipWs cs with
    | 'n' :: 'u' :: 'l' :: 'l' :: rest => some (.null, rest)
    | 't' :: 'r' :: 'u' :: 'e' :: rest => some (.bool true, rest)
    | 'f' :: 'a' :: 'l' :: 's' :: 'e' :: rest => some (.bool false, rest)
    | '"' :: rest => (pString (fuel + 1) rest).map (fun p => (.str p.1, p.2))
    | '[' :: rest =>
      (match skipWs rest with
       | ']' :: r2 => some (.arr [], r2)
       | cs2 => (pItems fuel cs2).map (fun p => (.arr p.1, p.2)))
    | '\x7b' :: rest =>
      (match skipWs rest with
       | '\x7d' :: r2 => some (.obj [], r2)
       | cs2 => (pFields fuel cs2).map (fun p => (.obj p.1, p.2)))
    | '-' :: rest => (pDigits rest).map (fun p => (.num (-(p.1 : Int)), p.2))
    | c :: rest =>
      if c.isDigit then (pDigits (c :: rest)).map (fun p => (.num (p.1 : Int), p.2))
      else none
    | [] => none

/-- Parse the comma-separated elements of a nonempty JSON array, up to and
including the closing bracket. -/
def pItems : Nat → List Char → Option (List JSON × List Char)
  | 0, _ => none
  | fuel + 1, cs =>
    match pValue fuel cs with
    | none => none
    | some (v, r) =>
      match skipWs r with
      | ',' :: r2 =>
        (match pItems fuel r2 with
         | some (vs, r3) => some (v :: vs, r3)
         | none => none)
      | ']' :: r2 => some ([v], r2)
      | _ => none

/-- Parse the comma-separated members of a nonempty JSON object, up to and
including the closing brace. -/
def pFields : Nat → List Char → Option (List (String × JSON) × List Char)
  | 0, _ => none
  | fuel + 1, cs =>
    match skipWs cs with
    | '"' :: rest =>
      (match pString (fuel + 1) rest with
       | none => none
       | some (k, r) =>
         match skipWs r with
         | ':' :: r2 =>
           (match pValue fuel r2 with
            | none => none
            | some (v, r3) =>
              match skipWs r3 with
              | ',' :: r4 =>
                (match pFields fuel r4 with
                 | some (fs, r5) => some ((k, v) :: fs, r5)
                 | none => none)
              | '\x7d' :: r4 => some ([(k, v)], r4)
              | _ => none)
         | _ => none)
    | _ => none

end

/-- Executable model of `JSON.parse` (without a reviver): `none` models a
thrown `SyntaxError`, in particular on the empty string. -/
def jsonParse (s : String) : Option JSON :=
  match pValue (s.length * 2 + 4) s.data with
  | none => none
  | some (j, rest) => if skipWs rest = [] then some j else none

/-- Escape one character for a JSON string literal (quote, backslash and
the common control characters; other characters pass through). -/
def jsonEscapeChar (c : Char) : String :=
  if c = '"' then "\\\""
  else if c = '\\' then "\\\\"
  else if c = '\n' then "\\n"
  else if c = '\r' then "\\r"
  else if c = '\t' then "\\t"
  else String.singleton c

/-- A JSON string literal. -/
def jsonQuote (s : String) : String :=
  "\"" ++ String.mk (s.data.flatMap (fun c => (jsonEscapeChar c).data)) ++ "\""

mutual

/-- Executable model of `JSON.stringify` on JSON trees. -/
def jsonStringify : JSON → String
  | .null => "null"
  | .bool b => if b then "true" else "false"
  | .num n => toString n
  | .str s => jsonQuote s
  | .arr elems => "[" ++ jsonStringifyItems elems ++ "]"
  | .obj fields => "\x7b" ++ jsonStringifyFields fields ++ "\x7d"

/-- Comma-separated serialization of array elements. -/
def jsonStringifyItems : List JSON → String
  | [] => ""
  | [x] => jsonStringify x
  | x :: xs => jsonStringify x ++ "," ++ jsonStringifyItems xs

/-- Comma-separated serialization of object members. -/
def jsonStringifyFields : List (String × JSON) → String
  | [] => ""
  | [(k, v)] => jsonQuote k ++ ":" ++ jsonStringify v
  | (k, v) :: fs => jsonQuote k ++ ":" ++ jsonStringify v ++ "," ++ jsonStringifyFields fs

end

mutual

/-- Net effect on the decoded JSON tree of the prototype-stripping
reviver: every object member whose key is literally `__proto__` is
dropped, at every nesting depth. -/
def stripProtoKeys : JSON → JSON
  | .obj fields => .obj (stripProtoFields fields)
  | .arr elems => .arr (stripProtoList elems)
  | j => j

/-- Strip `__proto__` members from an object's member list. -/
def stripProtoFields : List (String × JSON) → List (String × JSON)
  | [] => []
  | (k, v) :: rest =>
    if k = "__proto__" then stripProtoFields rest
    else (k, stripProtoKeys v) :: stripProtoFields rest

/-- Strip `__proto__` members inside every element of an array. -/
def stripProtoList : List JSON → List JSON
  | [] => []
  | x :: xs => stripProtoKeys x :: stripProtoList xs

end

mutual

/-- Decidable check that a JSON tree contains no member keyed `__proto__`
at any depth. -/
def noProtoKeys : JSON → Bool
  | .obj fields => noProtoKeysFields fields
  | .arr elems => noProtoKeysList elems
  | _ => true

/-- `noProtoKeys` over an object's member list. -/
def noProtoKeysFields : List (String × JSON) → Bool
  | [] => true
  | (k, v) :: rest => !(k == "__proto__") && noProtoKeys v && noProtoKeysFields rest

/-- `noProtoKeys` over an array's elements. -/
def noProtoKeysList : List JSON → Bool
  | [] => true
  | x :: xs => noProtoKeys x && noProtoKeysList xs

end

/-- Modelled from the spec: `data.getJSONParseReviver` comes from the
external `@ty-ras/data` package, whose source is not included under
`src/`.  Per the spec (§4.1): "A JSON-decode reviver function is derived
once from `allowProtoProperty`: when false (default), any key literally
equal to the prototype-link property name is dropped during parsing ...;
when true, that property passes through unmodified."  The reviver is
modelled by its net effect on the decoded JSON tree. -/
def getJSONParseReviver (allowProtoProperty : Bool) : JSON → JSON :=
  if allowProtoProperty then id else stripProtoKeys

/-- What `new URL(url, DUMMY_ORIGIN)` exposes of the WHATWG URL object:
its `origin` and its serialized absolute form `href`.  URL resolution is
a platform primitive; it is passed to the callback model as an explicit
function `String → URLInfo`. -/
structure URLInfo where
  origin : String
  href : String

/-- The `config` object of `HTTPEndpointCallerOptionsConfig`
(client.ts, lines 100-116): Axios creation parameters with a mandatory
`baseURL`.  The other optional Axios options do not influence any of the
code under verification and are not modelled. -/
structure AxiosConfig where
  baseURL : String

/-- The two variants of `HTTPEndpointCallerOptions` (client.ts,
lines 93-127): either `config` (engine-construction parameters) or
`instance` (a pre-built Axios instance, identified abstractly by a
number).  `inst` models the `instance` property; `instance` is a Lean
keyword. -/
inductive EngineSource where
  | config (config : AxiosConfig)
  | inst (axiosInstance : Nat)

/-- Structured options (`HTTPEndpointCallerOptions` plus the optional
`allowProtoProperty` of `HTTPEndpointCallerOptionsBase`, client.ts,
lines 132-137).  `none` models an absent property. -/
structure HTTPEndpointCallerOptions where
  engineSource : EngineSource
  allowProtoProperty : Option Bool

/-- `HTTPEndpointCallerArgs` (client.ts, line 88): a bare URL string or
structured options. -/
inductive HTTPEndpointCallerArgs where
  | url (s : String)
  | options (o : HTTPEndpointCallerOptions)

/-- The Axios instance bound in the returned callback's closure:
either freshly created via `axios.create(args.config)` or the provided
instance used as-is (client.ts, lines 30-31). -/
inductive AxiosEngine where
  | created (config : AxiosConfig)
  | provided (axiosInstance : Nat)

/-- The closure state of the callback returned by
`createCallHTTPEndpoint`: the engine and the reviver, both computed once
at factory-construction time (client.ts, lines 30-32). -/
structure EndpointCaller where
  engine : AxiosEngine
  reviver : JSON → JSON

/-- The normalization of `argsOrURL` into `args` (client.ts,
lines 26-29): a bare string is interpreted as
`\x7b config: \x7b baseURL: argsOrURL \x7d \x7d`. -/
def resolvedOptions : HTTPEndpointCallerArgs → HTTPEndpointCallerOptions
  | .url s => { engineSource := .config { baseURL := s }, allowProtoProperty := none }
  | .options o => o

/-- Translation of the construction-time part of `createCallHTTPEndpoint`
(client.ts, lines 23-32): normalize the arguments, build or adopt the
engine, and derive the reviver once from
`args.allowProtoProperty === true`. -/
def createCallHTTPEndpoint (argsOrURL : HTTPEndpointCallerArgs) : EndpointCaller :=
  let args := resolvedOptions argsOrURL
  { engine :=
      match args.engineSource with
      | .config c => .created c
      | .inst i => .provided i
    reviver := getJSONParseReviver (args.allowProtoProperty == some true) }

/-- The per-call request descriptor `\x7b method, url, query, body,
headers \x7d` accepted by the returned callback (client.ts, lines 34-40).
The request body is an arbitrary JSON-serializable value. -/
structure RequestArgs where
  method : String
  url : String
  query : Option (List (String × JSValue))
  body : Option JSON
  headers : Option (List (String × JSValue))

/-- The argument object handed to the Axios instance (client.ts,
lines 51-64).  A `none` field models a property that is absent because
the corresponding conditional spread contributed nothing. -/
structure EngineRequest where
  method : String
  url : String
  headers : Option (List (String × OutgoingHeader))
  params : Option (List (String × String))
  data : Option String
  responseType : String

/-- Translation of the request-construction half of the callback
(client.ts, lines 41-64): resolve `url` against the dummy origin, prepend
a forward slash when the resolved origin differs from the dummy origin or
the resolved absolute form equals the literal input, escape `?`/`#`, and
attach normalized headers, serialized query and serialized body exactly
when they were provided. -/
def buildEngineRequest (resolveURL : String → URLInfo) (req : RequestArgs) :
    EngineRequest :=
  let urlObject := resolveURL req.url
  let url :=
    if urlObject.origin ≠ DUMMY_ORIGIN ∨ urlObject.href = req.url then
      "/" ++ req.url
    else
      req.url
  { method := req.method
    url := ensureNoQueryOrFragment url
    headers :=
      match req.headers with
      | none => none
      | some requestHeaders => getOutgoingHeaders (some requestHeaders)
    params := req.query.map getURLSearchParams
    data := req.body.map jsonStringify
    responseType := "text" }

/-- The `\x7b status, headers, data \x7d` destructured from the value the
Axios instance resolves to (client.ts, lines 46-51), with `data` the raw
response body text (`responseType: "text"`). -/
structure EngineResponse where
  status : Int
  headers : List (String × JSValue)
  data : String

/-- The failure channel of the callback: the typed non-2xx error, or a
`SyntaxError` escaping from `JSON.parse` (whose platform-specific message
is not modelled). -/
inductive CallError where
  | non2xx (statusCode : Int) (message : String)
  | jsonDecodeError

/-- Modelled from the spec: the class `Non2xxStatusCodeError` lives in
`src/errors.ts` of this repository, which is not included under `src/`.
Per the spec (§7): "typed error carrying the numeric status code" with "a
message of the form `Status code <N> was returned.`". -/
def Non2xxStatusCodeError (statusCode : Int) : CallError :=
  .non2xx statusCode ("Status code " ++ toString statusCode ++ " was returned.")

/-- The value the callback's promise resolves to (client.ts,
lines 70-78). -/
structure ResponseResult where
  headers : List (String × JSValue)
  body : JSON

/-- Translation of the response-handling half of the callback (client.ts,
lines 66-78): throw the typed error for a status outside `[200, 300)`;
otherwise drop `undefined`/`null` response-header entries and JSON-parse
the body text with the reviver from construction. -/
def handleResponse (reviver : JSON → JSON) (resp : EngineResponse) :
    Except CallError ResponseResult :=
  if resp.status < 200 ∨ 300 ≤ resp.status then
    .error (Non2xxStatusCodeError resp.status)
  else
    match jsonParse resp.data with
    | none => .error .jsonDecodeError
    | some j =>
      .ok
        { headers := resp.headers.filter (fun p => !p.2.isUndefined && !p.2.isNull)
          body := reviver j }

/-- One whole invocation of the returned callback, with the platform URL
resolver and the engine's response supplied as oracles: what is handed to
the engine, and what the callback does with the engine's answer. -/
def callViaCaller (caller : EndpointCaller) (resolveURL : String → URLInfo)
    (req : RequestArgs) (resp : EngineResponse) :
    EngineRequest × Except CallError ResponseResult :=
  (buildEngineRequest resolveURL req, handleResponse caller.reviver resp)

/-! ### Helper lemmas -/

theorem getURLSearchParams_append (l₁ l₂ : List (String × JSValue)) :
    getURLSearchParams (l₁ ++ l₂) = getURLSearchParams l₁ ++ getURLSearchParams l₂ := by
  simp [getURLSearchParams, List.filter_append, List.flatMap_append]

theorem getURLSearchParams_cons_undefined (k : String) (rest : List (String × JSValue)) :
    getURLSearchParams ((k, JSValue.vUndefined) :: rest) = getURLSearchParams rest := by
  simp [getURLSearchParams, List.filter_cons, JSValue.isUndefined]

theorem getURLSearchParams_cons_arr (k : String) (elems : List JSValue)
    (rest : List (String × JSValue)) :
    getURLSearchParams ((k, JSValue.vArr elems) :: rest) =
      elems.map (fun v => (k, jsToString v)) ++ getURLSearchParams rest := by
  simp [getURLSearchParams, List.filter_cons, JSValue.isUndefined]

theorem getURLSearchParams_cons_scalar (k : String) (v : JSValue)
    (rest : List (String × JSValue)) (h1 : v.isUndefined = false) (h2 : v.isArr = false) :
    getURLSearchParams ((k, v) :: rest) = (k, jsToString v) :: getURLSearchParams rest := by
  cases v <;>
    simp_all [getURLSearchParams, List.filter_cons, JSValue.isUndefined, JSValue.isArr]

theorem getOutgoingHeadersEntries_append (l₁ l₂ : List (String × JSValue)) :
    getOutgoingHeadersEntries (l₁ ++ l₂) =
      getOutgoingHeadersEntries l₁ ++ getOutgoingHeadersEntries l₂ := by
  simp [getOutgoingHeadersEntries, List.filter_append]

theorem getOutgoingHeadersEntries_cons_undefined (k : String)
    (rest : List (String × JSValue)) :
    getOutgoingHeadersEntries ((k, JSValue.vUndefined) :: rest) =
      getOutgoingHeadersEntries rest := by
  simp [getOutgoingHeadersEntries, List.filter_cons, JSValue.isUndefined]

theorem getOutgoingHeadersEntries_cons_defined (k : String) (v : JSValue)
    (rest : List (String × JSValue)) (h : v.isUndefined = false) :
    getOutgoingHeadersEntries ((k, v) :: rest) =
      (k, getOutgoingHeader v) :: getOutgoingHeadersEntries rest := by
  simp [getOutgoingHeadersEntries, List.filter_cons, h]

theorem handleResponse_ok_elim (reviver : JSON → JSON) (resp : EngineResponse)
    (r : ResponseResult) (h : handleResponse reviver resp = Except.ok r) :
    (200 ≤ resp.status ∧ resp.status < 300) ∧
      ∃ j, jsonParse resp.data = some j ∧
        r = { headers := resp.headers.filter (fun p => !p.2.isUndefined && !p.2.isNull)
              body := reviver j } := by
  unfold handleResponse at h
  split at h
  · exact absurd h (by simp)
  · rename_i hcond
    push_neg at hcond
    split at h
    · exact absurd h (by simp)
    · rename_i j hj
      injection h with h
      exact ⟨⟨by omega, by omega⟩, j, hj, h.symm⟩

theorem handleResponse_bad_status (reviver : JSON → JSON) (resp : EngineResponse)
    (h : resp.status < 200 ∨ 300 ≤ resp.status) :
    handleResponse reviver resp = Except.error (Non2xxStatusCodeError resp.status) := by
  unfold handleResponse
  rw [if_pos h]

mutual

theorem noProtoKeys_strip : ∀ j : JSON, noProtoKeys (stripProtoKeys j) = true
  | .null => by simp [stripProtoKeys, noProtoKeys]
  | .bool b => by simp [stripProtoKeys, noProtoKeys]
  | .num n => by simp [stripProtoKeys, noProtoKeys]
  | .str s => by simp [stripProtoKeys, noProtoKeys]
  | .arr elems => by
      have h := noProtoKeysList_strip elems
      simpa [stripProtoKeys, noProtoKeys] using h
  | .obj fields => by
      have h := noProtoKeysFields_strip fields
      simpa [stripProtoKeys, noProtoKeys] using h

theorem noProtoKeysFields_strip :
    ∀ fs : List (String × JSON), noProtoKeysFields (stripProtoFields fs) = true
  | [] => by simp [stripProtoFields, noProtoKeysFields]
  | (k, v) :: rest => by
      have hv := noProtoKeys_strip v
      have hr := noProtoKeysFields_strip rest
      by_cases hk : k = "__proto__" <;>
        simp [stripProtoFields, noProtoKeysFields, hk, hv, hr]

theorem noProtoKeysList_strip :
    ∀ xs : List JSON, noProtoKeysList (stripProtoList xs) = true
  | [] => by simp [stripProtoList, noProtoKeysList]
  | x :: xs => by
      have hx := noProtoKeys_strip x
      have hxs := noProtoKeysList_strip xs
      simp [stripProtoList, noProtoKeysList, hx, hxs]

end

theorem escapeQFChar_question : escapeQFChar '?' = "%3F" := by decide

theorem escapeQFChar_hash : escapeQFChar '#' = "%23" := by decide

theorem escapeQFChar_other (c : Char) (h1 : c ≠ '?') (h2 : c ≠ '#') :
    escapeQFChar c = String.singleton c := by
  unfold escapeQFChar
  rw [if_neg]
  rintro (h | h) <;> [exact h1 h; exact h2 h]

theorem escapeQFChar_all_safe (c : Char) :
    ((escapeQFChar c).data.all fun d => !(d == '?') && !(d == '#')) = true := by
  by_cases h1 : c = '?'
  · rw [h1, escapeQFChar_question]; decide
  · by_cases h2 : c = '#'
    · rw [h2, escapeQFChar_hash]; decide
    · rw [escapeQFChar_other c h1 h2]
      simp [String.singleton, h1, h2]

theorem ensureNoQueryOrFragment_all_safe (s : String) :
    ((ensureNoQueryOrFragment s).data.all fun d => !(d == '?') && !(d == '#')) = true := by
  show ((s.data.flatMap fun c => (escapeQFChar c).data).all _) = true
  induction s.data with
  | nil => rfl
  | cons c cs ih =>
      rw [List.flatMap_cons, List.all_append, escapeQFChar_all_safe c, ih]
      rfl

/-! ### Claims -/

/-- C1: for every request descriptor whose `url` resolves against the
dummy origin `ftp://__dummy__` to an origin different from the dummy
origin, or to an absolute form equal to the literal input string, the
callback prepends a forward slash to `url` before handing it to the
transport engine: the url handed to the engine is the (escaped)
slash-prefixed input, so the absolute string is a literal path segment
relative to the configured base URL. -/
theorem claim_C1_absolute_url_is_slash_prefixed
    (resolveURL : String → URLInfo) (req : RequestArgs)
    (h : (resolveURL req.url).origin ≠ DUMMY_ORIGIN ∨ (resolveURL req.url).href = req.url) :
    (buildEngineRequest resolveURL req).url = ensureNoQueryOrFragment ("/" ++ req.url) := by
  show ensureNoQueryOrFragment
      (if (resolveURL req.url).origin ≠ DUMMY_ORIGIN ∨ (resolveURL req.url).href = req.url
        then "/" ++ req.url else req.url) = _
  rw [if_pos h]

/-- Witness for C1 at the spec's example input `"http://example.com"`,
with the URL resolver behaving as the WHATWG `URL` constructor does
there. -/
theorem claim_C1_witness :
    (buildEngineRequest (fun s => { origin := "http://example.com", href := s ++ "/" })
        { method := "GET", url := "http://example.com", query := none, body := none,
          headers := none }).url =
      ensureNoQueryOrFragment ("/" ++ "http://example.com") :=
  claim_C1_absolute_url_is_slash_prefixed _ _ (Or.inl (by decide))

/-- C2 (amended): a successful result is only produced for HTTP status in
`[200, 300)`, and every response with a status outside that range is
rejected with the typed non-2xx error carrying that exact numeric status
code and the message `Status code <N> was returned.` (regardless of the
response's headers and body, i.e. with no response normalization).  A
2xx response may nevertheless be rejected, with a decode error, when its
body is not valid JSON, so "resolves if the status is 2xx" does not
hold. -/
theorem claim_C2_status_gating (reviver : JSON → JSON) (resp : EngineResponse) :
    (∀ r : ResponseResult, handleResponse reviver resp = Except.ok r →
        200 ≤ resp.status ∧ resp.status < 300) ∧
    (resp.status < 200 ∨ 300 ≤ resp.status →
      handleResponse reviver resp =
        Except.error (CallError.non2xx resp.status
          ("Status code " ++ toString resp.status ++ " was returned."))) := by
  constructor
  · intro r hr
    exact (handleResponse_ok_elim reviver resp r hr).1
  · intro h
    exact handleResponse_bad_status reviver resp h

/-- Counterexample to C2 as stated: a response with the in-range status
200 whose body text `"x"` is not valid JSON is rejected (with a decode
error), so the callback does not resolve for every 2xx status. -/
theorem claim_C2_counterexample :
    (200 ≤ (200 : Int) ∧ (200 : Int) < 300) ∧
      handleResponse (getJSONParseReviver false)
          { status := 200, headers := [], data := "x" } =
        Except.error CallError.jsonDecodeError :=
  ⟨by decide, rfl⟩

/-- Witness for C2 at status 404: the callback rejects with the typed
error carrying 404 and the exact message. -/
theorem claim_C2_witness :
    handleResponse (getJSONParseReviver false)
        { status := 404, headers := [], data := "" } =
      Except.error (CallError.non2xx 404 "Status code 404 was returned.") :=
  (claim_C2_status_gating (getJSONParseReviver false)
    { status := 404, headers := [], data := "" }).2 (by decide)

/-- C3: the url handed to the transport engine never contains a literal
`?` or `#` character, and `ensureNoQueryOrFragment` replaces every
literal `?` with `%3F` and every literal `#` with `%23`, leaving every
other character unchanged. -/
theorem claim_C3_no_query_or_fragment_reaches_engine
    (resolveURL : String → URLInfo) (req : RequestArgs) :
    (((buildEngineRequest resolveURL req).url.data.all
        fun c => !(c == '?') && !(c == '#')) = true) ∧
    (∀ s : String, (ensureNoQueryOrFragment s).data =
        s.data.flatMap fun c =>
          if c = '?' then "%3F".data else if c = '#' then "%23".data else [c]) := by
  constructor
  · exact ensureNoQueryOrFragment_all_safe _
  · intro s
    show (s.data.flatMap fun c => (escapeQFChar c).data) = _
    congr 1
    funext c
    by_cases h1 : c = '?'
    · rw [h1, escapeQFChar_question]; rfl
    · by_cases h2 : c = '#'
      · rw [h2, escapeQFChar_hash]; rfl
      · rw [escapeQFChar_other c h1 h2, if_neg h1, if_neg h2]; rfl

/-- C4: evaluation of the code at the failing input: a 2xx response whose
body text is empty is rejected with a JSON decode error (the source
passes the body text straight to `JSON.parse`, and parsing the empty
string fails), instead of resolving with an undefined body as the claim,
the spec and the repository's own tests require. -/
theorem claim_C4_empty_body_rejects :
    handleResponse (getJSONParseReviver false)
        { status := 204, headers := [], data := "" } =
      Except.error CallError.jsonDecodeError ∧
    jsonParse "" = none :=
  ⟨rfl, rfl⟩

/-- C5: the reviver captured by the callback at factory-construction time
is exactly the one derived from `allowProtoProperty === true`; for every
successful call made with `allowProtoProperty` unset or false the decoded
body contains no `__proto__` key at any depth, and with
`allowProtoProperty` set to `true` the decoded body is the parsed JSON
tree unmodified. -/
theorem claim_C5_proto_property_stripping (argsOrURL : HTTPEndpointCallerArgs)
    (resp : EngineResponse) (r : ResponseResult)
    (hok : handleResponse (createCallHTTPEndpoint argsOrURL).reviver resp = Except.ok r) :
    ((createCallHTTPEndpoint argsOrURL).reviver =
        getJSONParseReviver ((resolvedOptions argsOrURL).allowProtoProperty == some true)) ∧
    (((resolvedOptions argsOrURL).allowProtoProperty == some true) = false →
        noProtoKeys r.body = true) ∧
    (((resolvedOptions argsOrURL).allowProtoProperty == some true) = true →
        ∀ j, jsonParse resp.data = some j → r.body = j) := by
  obtain ⟨-, j, hj, hr⟩ := handleResponse_ok_elim _ _ _ hok
  refine ⟨rfl, ?_, ?_⟩
  · intro hfalse
    have hrev : (createCallHTTPEndpoint argsOrURL).reviver = stripProtoKeys := by
      show getJSONParseReviver ((resolvedOptions argsOrURL).allowProtoProperty == some true) =
        stripProtoKeys
      rw [hfalse]
      rfl
    rw [hr]
    show noProtoKeys ((createCallHTTPEndpoint argsOrURL).reviver j) = true
    rw [hrev]
    exact noProtoKeys_strip j
  · intro htrue j2 hj2
    have hrev : (createCallHTTPEndpoint argsOrURL).reviver = id := by
      show getJSONParseReviver ((resolvedOptions argsOrURL).allowProtoProperty == some true) = id
      rw [htrue]
      rfl
    have hjj : j = j2 := by
      have h12 := hj.symm.trans hj2
      injection h12
    rw [hr]
    show (createCallHTTPEndpoint argsOrURL).reviver j = j2
    rw [hrev, ← hjj]
    rfl

/-- Witness for C5: a factory built without `allowProtoProperty`, given a
2xx response whose body is an object with a `__proto__` member, produces
a decoded body free of `__proto__` keys. -/
theorem claim_C5_witness : noProtoKeys (JSON.obj [("a", JSON.num 2)]) = true :=
  (claim_C5_proto_property_stripping
      (.options ⟨.config ⟨"http://localhost"⟩, none⟩)
      { status := 200, headers := [], data := "\x7b\"__proto__\":1,\"a\":2\x7d" }
      { headers := [], body := JSON.obj [("a", JSON.num 2)] }
      rfl).2.1 rfl

/-- C6: query serialization drops entries whose value is `undefined`,
emits one occurrence per array element (under the same key, in array
order) for array-valued entries, and exactly one string-converted
occurrence for scalar-valued entries — each stated positionally for an
arbitrary entry of the provided query mapping. -/
theorem claim_C6_query_serialization :
    (∀ (pre : List (String × JSValue)) (k : String) (post : List (String × JSValue)),
        getURLSearchParams (pre ++ (k, JSValue.vUndefined) :: post) =
          getURLSearchParams (pre ++ post)) ∧
    (∀ (pre : List (String × JSValue)) (k : String) (elems : List JSValue)
        (post : List (String × JSValue)),
        getURLSearchParams (pre ++ (k, JSValue.vArr elems) :: post) =
          getURLSearchParams pre ++ elems.map (fun v => (k, jsToString v)) ++
            getURLSearchParams post) ∧
    (∀ (pre : List (String × JSValue)) (k : String) (v : JSValue)
        (post : List (String × JSValue)), v.isUndefined = false → v.isArr = false →
        getURLSearchParams (pre ++ (k, v) :: post) =
          getURLSearchParams pre ++ (k, jsToString v) :: getURLSearchParams post) := by
  refine ⟨?_, ?_, ?_⟩
  · intro pre k post
    rw [getURLSearchParams_append, getURLSearchParams_cons_undefined,
      ← getURLSearchParams_append]
  · intro pre k elems post
    rw [getURLSearchParams_append, getURLSearchParams_cons_arr, List.append_assoc]
  · intro pre k v post h1 h2
    rw [getURLSearchParams_append, getURLSearchParams_cons_scalar k v post h1 h2]

/-- Witness for C6 on the spec's example `query = \x7b a: "1",
b: ["2","3"] \x7d`, instantiating the scalar clause at the entry
`a: "1"`. -/
theorem claim_C6_witness :
    getURLSearchParams ([("b", JSValue.vArr [JSValue.vStr "2", JSValue.vStr "3"])] ++
        ("a", JSValue.vStr "1") :: []) =
      getURLSearchParams [("b", JSValue.vArr [JSValue.vStr "2", JSValue.vStr "3"])] ++
        ("a", jsToString (JSValue.vStr "1")) :: getURLSearchParams [] :=
  claim_C6_query_serialization.2.2 _ "a" _ [] rfl rfl

/-- C7: request-header normalization drops entries whose value is
`undefined`; among the remaining entries, string and number values pass
through unchanged, array values are mapped to arrays of strings with
`undefined` elements dropped, and every other value is coerced via string
conversion. -/
theorem claim_C7_header_normalization :
    (∀ (pre : List (String × JSValue)) (k : String) (post : List (String × JSValue)),
        getOutgoingHeadersEntries (pre ++ (k, JSValue.vUndefined) :: post) =
          getOutgoingHeadersEntries (pre ++ post)) ∧
    (∀ s, getOutgoingHeader (JSValue.vStr s) = OutgoingHeader.str s) ∧
    (∀ n, getOutgoingHeader (JSValue.vNum n) = OutgoingHeader.num n) ∧
    (∀ elems, getOutgoingHeader (JSValue.vArr elems) =
        OutgoingHeader.arr ((elems.filter fun v => !v.isUndefined).map jsToString)) ∧
    (∀ v : JSValue, v.isStr = false → v.isNum = false → v.isArr = false →
        getOutgoingHeader v = OutgoingHeader.str (jsToString v)) ∧
    (∀ (pre : List (String × JSValue)) (k : String) (v : JSValue)
        (post : List (String × JSValue)), v.isUndefined = false →
        getOutgoingHeadersEntries (pre ++ (k, v) :: post) =
          getOutgoingHeadersEntries pre ++ (k, getOutgoingHeader v) ::
            getOutgoingHeadersEntries post) := by
  refine ⟨?_, fun s => rfl, fun n => rfl, fun elems => rfl, ?_, ?_⟩
  · intro pre k post
    rw [getOutgoingHeadersEntries_append, getOutgoingHeadersEntries_cons_undefined,
      ← getOutgoingHeadersEntries_append]
  · intro v h1 h2 h3
    cases v <;> simp_all [getOutgoingHeader, JSValue.isStr, JSValue.isNum, JSValue.isArr]
  · intro pre k v post h
    rw [getOutgoingHeadersEntries_append, getOutgoingHeadersEntries_cons_defined k v post h]

/-- Witness for C7: a numeric header entry passes through unchanged at
its position. -/
theorem claim_C7_witness :
    getOutgoingHeadersEntries ([] ++ ("h", JSValue.vNum 5) :: []) =
      getOutgoingHeadersEntries [] ++ ("h", getOutgoingHeader (JSValue.vNum 5)) ::
        getOutgoingHeadersEntries [] :=
  claim_C7_header_normalization.2.2.2.2.2 [] "h" _ [] rfl

/-- C8: for every response the callback resolves successfully, the
returned result's headers are exactly the response-header entries whose
value is neither `undefined` nor `null`, each passed through
unchanged. -/
theorem claim_C8_response_header_filtering (reviver : JSON → JSON)
    (resp : EngineResponse) (r : ResponseResult)
    (hok : handleResponse reviver resp = Except.ok r) :
    r.headers = resp.headers.filter fun p => !p.2.isUndefined && !p.2.isNull := by
  obtain ⟨-, j, -, hr⟩ := handleResponse_ok_elim _ _ _ hok
  rw [hr]

/-- Witness for C8: a successful 200 response with one `undefined`-valued
and one `null`-valued header entry keeps exactly the other entries. -/
theorem claim_C8_witness :
    ({ headers := [("a", JSValue.vStr "x"), ("d", JSValue.vNum 1)],
        body := JSON.num 0 } : ResponseResult).headers =
      [("a", JSValue.vStr "x"), ("b", JSValue.vUndefined), ("c", JSValue.vNull),
        ("d", JSValue.vNum 1)].filter (fun p => !p.2.isUndefined && !p.2.isNull) :=
  claim_C8_response_header_filtering (getJSONParseReviver true)
    { status := 200,
      headers := [("a", JSValue.vStr "x"), ("b", JSValue.vUndefined),
        ("c", JSValue.vNull), ("d", JSValue.vNum 1)],
      data := "0" }
    { headers := [("a", JSValue.vStr "x"), ("d", JSValue.vNum 1)], body := JSON.num 0 }
    rfl

/-- C9: calling the factory with a bare string `s` produces the same
closure — same engine construction, same reviver — as calling it with
the structured options object carrying `config.baseURL = s`, and hence
the same per-call behavior on every request and response. -/
theorem claim_C9_string_config_equivalence (s : String) :
    createCallHTTPEndpoint (.url s) =
      createCallHTTPEndpoint
        (.options { engineSource := .config { baseURL := s }, allowProtoProperty := none }) ∧
    ∀ (resolveURL : String → URLInfo) (req : RequestArgs) (resp : EngineResponse),
      callViaCaller (createCallHTTPEndpoint (.url s)) resolveURL req resp =
        callViaCaller
          (createCallHTTPEndpoint
            (.options { engineSource := .config { baseURL := s }, allowProtoProperty := none }))
          resolveURL req resp :=
  ⟨rfl, fun _ _ _ => rfl⟩

/-- C10: `null`-valued entries (unlike `undefined`-valued ones) are not
dropped: a `null` scalar query value is serialized as the string
`"null"`, a `null` header value is kept and coerced to the string
`"null"`, and `null` elements inside header arrays are kept and
converted to `"null"` while `undefined` elements are filtered out. -/
theorem claim_C10_null_values_kept :
    (∀ (pre : List (String × JSValue)) (k : String) (post : List (String × JSValue)),
        getURLSearchParams (pre ++ (k, JSValue.vNull) :: post) =
          getURLSearchParams pre ++ (k, "null") :: getURLSearchParams post) ∧
    (getOutgoingHeader JSValue.vNull = OutgoingHeader.str "null") ∧
    (∀ (pre : List (String × JSValue)) (k : String) (post : List (String × JSValue)),
        getOutgoingHeadersEntries (pre ++ (k, JSValue.vNull) :: post) =
          getOutgoingHeadersEntries pre ++ (k, OutgoingHeader.str "null") ::
            getOutgoingHeadersEntries post) ∧
    (∀ pre post : List JSValue,
        getOutgoingHeader (JSValue.vArr (pre ++ JSValue.vNull :: post)) =
          OutgoingHeader.arr ((pre.filter fun v => !v.isUndefined).map jsToString ++
            "null" :: (post.filter fun v => !v.isUndefined).map jsToString)) ∧
    (∀ pre post : List JSValue,
        getOutgoingHeader (JSValue.vArr (pre ++ JSValue.vUndefined :: post)) =
          getOutgoingHeader (JSValue.vArr (pre ++ post))) := by
  refine ⟨?_, ?_, ?_, ?_, ?_⟩
  · intro pre k post
    rw [getURLSearchParams_append, getURLSearchParams_cons_scalar k JSValue.vNull post rfl rfl]
    simp [jsToString]
  · simp [getOutgoingHeader, jsToString]
  · intro pre k post
    rw [getOutgoingHeadersEntries_append,
      getOutgoingHeadersEntries_cons_defined k JSValue.vNull post rfl]
    simp [getOutgoingHeader, jsToString]
  · intro pre post
    simp [getOutgoingHeader, List.filter_append, List.filter_cons, JSValue.isUndefined,
      jsToString]
  · intro pre post
    simp [getOutgoingHeader, List.filter_append, List.filter_cons, JSValue.isUndefined]

end ClientAxios
